import Mathlib

/-!
Verification development for a retrieval-augmented document chat application.

This file shallowly embeds the core operations of the program:
the text chunker `split_text` and PDF ingestion `process_pdf`
(from `document_processor.py`), the statistics aggregation
`get_document_stats`, and the chat orchestration `get_response`,
`build_prompt` and `call_ollama` (from `chat_engine.py`).

Texts handled by the chunker are modelled as `List Char`, cursor
positions as `Int` (Python indices can go negative, and Python's
slice/rfind semantics for negative indices are modelled explicitly).
The chunker's `while` loop is embedded with explicit fuel, returning
`none` when the fuel runs out, so that non-termination of the source
loop is expressible.
-/

namespace SmartDocChat

/-- Whitespace recognised by Python's `str.strip` / `str.isspace`
(ASCII range). -/
def isPySpace (c : Char) : Bool :=
  c = ' ' || c = '\t' || c = '\n' || c = '\r' || c = '\x0b' || c = '\x0c'

/-- Python `str.strip()`: drop leading and trailing whitespace. -/
def pyStrip (l : List Char) : List Char :=
  ((l.dropWhile isPySpace).reverse.dropWhile isPySpace).reverse

/-- Adjust one slice index the way Python does for `s[a:b]` and
`str.rfind(sub, a, b)`: negative indices count from the end of the
string and are clamped to `[0, len]`. -/
def pyAdjIdx (len : Nat) (i : Int) : Nat :=
  if i < 0 then ((len : Int) + i).toNat else min i.toNat len

/-- Python slicing `text[a:b]`. -/
def pySlice (text : List Char) (a b : Int) : List Char :=
  (text.take (pyAdjIdx text.length b)).drop (pyAdjIdx text.length a)

/-- Scan of the text keeping the index of the last occurrence of `sub`
that starts at an index in `[lo, hi - sub.length]`.  The first list
argument is the remaining suffix of the text, the `Nat` the index of
its head in the full text, the `Option Nat` the best match so far. -/
def rfindGo (sub : List Char) (lo hi : Nat) : List Char → Nat → Option Nat → Option Nat
  | [], _, best => best
  | l :: ls, i, best =>
      rfindGo sub lo hi ls (i + 1)
        (if lo ≤ i ∧ i + sub.length ≤ hi ∧ sub.isPrefixOf (l :: ls) = true then some i else best)

/-- Python `text.rfind(sub, a, b)`: highest index of an occurrence of
`sub` contained in `text[a:b]`, `-1` if there is none. -/
def pyRfind (text sub : List Char) (a b : Int) : Int :=
  match rfindGo sub (pyAdjIdx text.length a) (pyAdjIdx text.length b) text 0 none with
  | some i => (i : Int)
  | none => -1

/-- The sentence-break strings `['. ', '? ', '! ', '\n']` of
`split_text` (document_processor.py line 74), in source order. -/
def sentenceBreaks : List (List Char) := [['.', ' '], ['?', ' '], ['!', ' '], ['\n']]

/-- The `for char in [...]` loop with `break`/`else` of `split_text`
(lines 74-78): first delimiter string (in list order) with an
occurrence in `[s, e0)` wins, and the end moves to one past the start
of its last occurrence. -/
def findBreak (text : List Char) (s e0 : Int) : List (List Char) → Option Int
  | [] => none
  | d :: ds =>
      if pyRfind text d s e0 ≠ -1 then some (pyRfind text d s e0 + 1)
      else findBreak text s e0 ds

/-- Lines 72-83 of document_processor.py: adjust the proposed end of a
chunk to a sentence break, else to the last plain space, else keep it. -/
def adjustEnd (text : List Char) (s e0 : Int) : Int :=
  match findBreak text s e0 sentenceBreaks with
  | some e => e
  | none => if pyRfind text [' '] s e0 ≠ -1 then pyRfind text [' '] s e0 else e0

/-- The end position used for the chunk starting at `s`
(`end = start + chunk_size`, adjusted only when it falls before the
end of the text — lines 69-83). -/
def stepEnd (text : List Char) (cs s : Int) : Int :=
  if s + cs < (text.length : Int) then adjustEnd text s (s + cs) else s + cs

/-- The next cursor position
(`start = end - overlap if end < text_length else text_length`, line 91). -/
def stepStart (text : List Char) (cs ov s : Int) : Int :=
  if stepEnd text cs s < (text.length : Int) then stepEnd text cs s - ov
  else (text.length : Int)

/-- The `while start < text_length` loop of `split_text`
(lines 63-93), with explicit fuel; `none` means the fuel ran out
(the source loop has not terminated within that many iterations). -/
def splitTextGo (text : List Char) (cs ov : Int) : Nat → Int → List (List Char) → Option (List (List Char))
  | 0, _, _ => none
  | fuel + 1, start, chunks =>
      if start < (text.length : Int) then
        splitTextGo text cs ov fuel (stepStart text cs ov start)
          (if pyStrip (pySlice text start (stepEnd text cs start)) = [] then chunks
           else chunks ++ [pyStrip (pySlice text start (stepEnd text cs start))])
      else some chunks

/-- `split_text(text, chunk_size, overlap)` run with the given fuel. -/
def split_text (text : List Char) (cs ov : Int) (fuel : Nat) : Option (List (List Char)) :=
  splitTextGo text cs ov fuel 0 []

/-- The call `split_text(text, cs, ov)` terminates. -/
def SplitTerminates (text : List Char) (cs ov : Int) : Prop :=
  ∃ fuel, (split_text text cs ov fuel).isSome

/-- Mirror of `splitTextGo` recording that the cursor strictly
advances at every executed loop iteration. -/
def splitAdvances (text : List Char) (cs ov : Int) : Nat → Int → Bool
  | 0, _ => false
  | fuel + 1, start =>
      if start < (text.length : Int) then
        decide (start < stepStart text cs ov start) &&
          splitAdvances text cs ov fuel (stepStart text cs ov start)
      else true

/-- Chunk metadata (`{'source': ..., 'page': ..., 'chunk': ...}` of
document_processor.py lines 38-42). -/
structure Meta where
  source : String
  page : Nat
  chunk : Nat
deriving DecidableEq, Repr

/-- One chunk record produced by `process_pdf`. -/
structure Chunk where
  text : List Char
  metadata : Meta
deriving DecidableEq, Repr

/-- The page loop of `process_pdf` (document_processor.py lines 27-43):
pages are the texts extracted by the PDF reader, numbered from
`pageNum`; pages blank after stripping are skipped, the others are
chunked with `chunk_size=800, overlap=200` and each chunk is emitted with
its page number and 0-based position.  `none` when a `split_text` call
does not finish within the fuel. -/
def processPdfGo (fuel : Nat) (filename : String) : List (List Char) → Nat → Option (List Chunk)
  | [], _ => some []
  | t :: rest, pageNum =>
      if pyStrip t = [] then processPdfGo fuel filename rest (pageNum + 1)
      else
        match split_text t 800 200 fuel with
        | none => none
        | some pcs =>
            (processPdfGo fuel filename rest (pageNum + 1)).map
              (fun r => pcs.enum.map (fun ic => Chunk.mk ic.2 ⟨filename, pageNum, ic.1⟩) ++ r)

/-- `process_pdf`, abstracting the external PDF reader as the list of
per-page extracted texts (pages are numbered from 1). -/
def process_pdf (fuel : Nat) (pages : List (List Char)) (filename : String) : Option (List Chunk) :=
  processPdfGo fuel filename pages 1

/-- The dictionary returned by `get_document_stats`; `avg_chunk_size`
is `none` when the key is absent from the returned dict. -/
structure DocStats where
  total_chunks : Nat
  total_characters : Nat
  sources : Finset String
  avg_chunk_size : Option Nat
deriving DecidableEq

/-- `get_document_stats` (document_processor.py lines 96-121).  The
empty-input branch returns a dict without an `avg_chunk_size` key. -/
def get_document_stats (chunks : List Chunk) : DocStats :=
  if chunks = [] then
    { total_chunks := 0, total_characters := 0, sources := ∅, avg_chunk_size := none }
  else
    { total_chunks := chunks.length
      total_characters := (chunks.map (fun c => c.text.length)).sum
      sources := (chunks.map (fun c => c.metadata.source)).toFinset
      avg_chunk_size := some (if chunks = [] then 0
        else (chunks.map (fun c => c.text.length)).sum / chunks.length) }

/-- A chat-history message dict; `none` models a missing key
(`msg.get("role", "user")`, `msg.get("content", "")`). -/
structure ChatMsg where
  role : Option String
  content : Option String
deriving DecidableEq

/-- The system message of `ChatEngine._build_prompt`
(chat_engine.py lines 114-123). -/
def systemMsg : String :=
  "You are a helpful AI assistant that answers questions based on provided documents.\n\nIMPORTANT RULES:\n- Answer questions using ONLY the information from the provided documents\n- Do NOT mention document numbers (like \"Document 1\", \"Document 2\", etc.) in your response\n- Answer naturally as if the information is from a single coherent source\n- For summarization questions (\"what is this about?\", \"summarize\"), provide a comprehensive overview of the content\n- If the answer is not in the documents, say \"I cannot find that information in the uploaded documents\"\n- Be concise but thorough\n- If asked about something not in the documents, politely decline and explain what information IS available"

/-- One history entry as appended in the loop of `_build_prompt`
(line 131): `f"\n\x7brole.upper()\x7d: \x7bcontent\x7d"` with the
defaults of lines 129-130. -/
def renderMsg (m : ChatMsg) : String :=
  "\n" ++ (m.role.getD "user").toUpper ++ ": " ++ (m.content.getD "")

/-- Python `l[-n:]`. -/
def takeLast (n : Nat) (l : List α) : List α := l.drop (l.length - n)

/-- The `history_text` accumulation of `_build_prompt`
(lines 126-131): empty for a missing or empty history, else the
concatenated renderings of the last 3 messages. -/
def historyText : Option (List ChatMsg) → String
  | none => ""
  | some msgs =>
      if msgs = [] then ""
      else (takeLast 3 msgs).foldl (fun acc m => acc ++ renderMsg m) ""

/-- `ChatEngine._build_prompt` (chat_engine.py lines 96-146). -/
def build_prompt (query context : String) (hist : Option (List ChatMsg)) : String :=
  systemMsg ++ "\n\nPREVIOUS CONVERSATION:\n" ++
    (if historyText hist = "" then "(No previous conversation)" else historyText hist) ++
    "\n\nRELEVANT DOCUMENTS:\n" ++ context ++
    "\n\nUSER QUESTION: " ++ query ++ "\n\nASSISTANT ANSWER:"

/-- Outcome of the HTTP POST inside `_call_ollama`: a successful
response (with the optional `response` JSON field), a connection
error, a timeout, or another request failure. -/
inductive OllamaResp where
  | ok (responseField : Option String)
  | connError
  | timeout
  | reqError (msg : String)

/-- `ChatEngine._call_ollama` (chat_engine.py lines 148-184):
translation of transport outcomes into a returned text or a raised
exception message. -/
def call_ollama : OllamaResp → Except String String
  | .ok body => .ok (body.getD "No response generated")
  | .connError => .error "Cannot connect to Ollama. Make sure it\x27s running with: ollama serve"
  | .timeout => .error "Ollama request timed out. Try a smaller model or simpler question."
  | .reqError m => .error ("Error calling Ollama: " ++ m)

/-- `ChatEngine.get_response` (chat_engine.py lines 55-94).  The
vector store is abstracted as the function `search` from the query to
the retrieved `(documents, metadatas)`, and the generation HTTP call
as `transport` from the prompt to its outcome.  The final `Nat`
counts how many times `_call_ollama` was invoked. -/
def get_response {α : Type} (search : String → List String × List α)
    (transport : String → OllamaResp) (query : String)
    (hist : Option (List ChatMsg)) : (String × List α) × Nat :=
  if (search query).1 = [] then
    (("I don\x27t have any documents to reference. Please upload some documents first.", []), 0)
  else
    match call_ollama (transport (build_prompt query
        (String.intercalate "\n\n---\n\n" (search query).1) hist)) with
    | .ok t => ((t, (search query).2), 1)
    | .error e => (("Error getting response from Ollama: " ++ e, []), 1)

/-- Sequential rendering of a list of history messages, one `renderMsg`
after another. -/
def renderHistory : List ChatMsg → String
  | [] => ""
  | m :: t => renderMsg m ++ renderHistory t

/-! ### Helper lemmas -/

theorem mem_of_isPrefixOf {sub l : List Char} (h : sub.isPrefixOf l = true) :
    ∀ c ∈ sub, c ∈ l := by
  induction sub generalizing l with
  | nil => intro c hc; simp at hc
  | cons a as ih =>
      cases l with
      | nil => simp [List.isPrefixOf] at h
      | cons b bs =>
          simp only [List.isPrefixOf, Bool.and_eq_true, beq_iff_eq] at h
          intro c hc
          rcases List.mem_cons.mp hc with rfl | hc
          · rw [h.1]; exact List.mem_cons_self _ _
          · exact List.mem_cons_of_mem _ (ih h.2 c hc)

theorem rfindGo_no_match {sub : List Char} {c : Char} (hc : c ∈ sub) (lo hi : Nat) :
    ∀ (l : List Char), c ∉ l → ∀ (i : Nat) (best : Option Nat),
      rfindGo sub lo hi l i best = best := by
  intro l
  induction l with
  | nil => intro _ i best; rfl
  | cons a as ih =>
      intro hnl i best
      rw [rfindGo]
      have hpre : ¬ (sub.isPrefixOf (a :: as) = true) := by
        intro hp; exact hnl (mem_of_isPrefixOf hp c hc)
      rw [if_neg (by intro hand; exact hpre hand.2.2)]
      exact ih (fun hmem => hnl (List.mem_cons_of_mem _ hmem)) (i + 1) best

theorem pyRfind_no_char {text sub : List Char} {c : Char} (hc : c ∈ sub)
    (hnc : c ∉ text) (a b : Int) : pyRfind text sub a b = -1 := by
  unfold pyRfind
  rw [rfindGo_no_match hc _ _ text hnc 0 none]

theorem stepEnd_of_no_ws {text : List Char} (hs : ' ' ∉ text) (hn : '\n' ∉ text)
    (cs s : Int) : stepEnd text cs s = s + cs := by
  unfold stepEnd
  have h1 := pyRfind_no_char (show ' ' ∈ ['.', ' '] by decide) hs s (s + cs)
  have h2 := pyRfind_no_char (show ' ' ∈ ['?', ' '] by decide) hs s (s + cs)
  have h3 := pyRfind_no_char (show ' ' ∈ ['!', ' '] by decide) hs s (s + cs)
  have h4 := pyRfind_no_char (show '\n' ∈ ['\n'] by decide) hn s (s + cs)
  have h5 := pyRfind_no_char (show ' ' ∈ [' '] by decide) hs s (s + cs)
  have hadj : adjustEnd text s (s + cs) = s + cs := by
    simp [adjustEnd, findBreak, sentenceBreaks, h1, h2, h3, h4, h5]
  split
  · exact hadj
  · rfl

theorem mem_dropWhile {p : Char → Bool} {l : List Char} {c : Char}
    (hc : c ∈ l) (hp : p c = false) : c ∈ l.dropWhile p := by
  induction l with
  | nil => simp at hc
  | cons a as ih =>
      rcases List.mem_cons.mp hc with rfl | hmem
      · rw [List.dropWhile_cons, hp]; exact List.mem_cons_self _ _
      · rw [List.dropWhile_cons]
        cases ha : p a
        · simp only [ha, Bool.false_eq_true, if_false]
          exact List.mem_cons_of_mem _ hmem
        · simp only [ha, if_true]
          exact ih hmem

theorem mem_pyStrip {l : List Char} {c : Char} (hc : c ∈ l)
    (hns : isPySpace c = false) : c ∈ pyStrip l := by
  unfold pyStrip
  exact List.mem_reverse.mpr
    (mem_dropWhile (List.mem_reverse.mpr (mem_dropWhile hc hns)) hns)

theorem mem_pySlice {text : List Char} {s e : Int} {i : Nat}
    (hs0 : 0 ≤ s) (hsi : s ≤ (i : Int)) (hie : (i : Int) < e)
    (hi : i < text.length) : text.get ⟨i, hi⟩ ∈ pySlice text s e := by
  unfold pySlice
  have hA : pyAdjIdx text.length s ≤ i := by
    unfold pyAdjIdx
    rw [if_neg (by omega)]
    have : s.toNat ≤ i := by omega
    omega
  have hB : i < pyAdjIdx text.length e := by
    unfold pyAdjIdx
    rw [if_neg (by omega)]
    have : i < e.toNat := by omega
    omega
  have h1 : i - pyAdjIdx text.length s <
      ((text.take (pyAdjIdx text.length e)).drop (pyAdjIdx text.length s)).length := by
    simp only [List.length_drop, List.length_take]
    omega
  have h2 : ((text.take (pyAdjIdx text.length e)).drop (pyAdjIdx text.length s)).get
      ⟨i - pyAdjIdx text.length s, h1⟩ = text.get ⟨i, hi⟩ := by
    simp only [List.get_eq_getElem, List.getElem_drop, List.getElem_take]
    congr 1
    omega
  rw [← h2]
  exact List.get_mem _ _ _

theorem splitTextGo_stall :
    ∀ (fuel : Nat) (acc : List (List Char)),
      splitTextGo " aaaaaaaaaaaa".toList 10 0 fuel 0 acc = none := by
  intro fuel
  induction fuel with
  | zero => intro acc; rfl
  | succ n ih =>
      intro acc
      rw [splitTextGo]
      rw [if_pos (show (0 : Int) < (" aaaaaaaaaaaa".toList.length : Int) by decide)]
      rw [show stepStart " aaaaaaaaaaaa".toList 10 0 0 = 0 from by decide]
      rw [if_pos (show pyStrip (pySlice " aaaaaaaaaaaa".toList 0
        (stepEnd " aaaaaaaaaaaa".toList 10 0)) = [] from by decide)]
      exact ih acc

theorem splitTextGo_no_ws_isSome {text : List Char} (hs : ' ' ∉ text)
    (hn : '\n' ∉ text) {cs ov : Int} (hcs : ov < cs) :
    ∀ (k : Nat) (s : Int) (acc : List (List Char)),
      ((text.length : Int) - s).toNat ≤ k →
      (splitTextGo text cs ov (k + 1) s acc).isSome := by
  intro k
  induction k with
  | zero =>
      intro s acc hk
      rw [splitTextGo, if_neg (by omega)]
      rfl
  | succ n ih =>
      intro s acc hk
      by_cases hlt : s < (text.length : Int)
      · rw [splitTextGo, if_pos hlt]
        have hse := stepEnd_of_no_ws hs hn cs s
        by_cases hfin : s + cs < (text.length : Int)
        · have hstart : stepStart text cs ov s = s + cs - ov := by
            unfold stepStart; rw [hse, if_pos hfin]
          rw [hstart]
          exact ih _ _ (by omega)
        · have hstart : stepStart text cs ov s = (text.length : Int) := by
            unfold stepStart; rw [hse, if_neg hfin]
          rw [hstart]
          exact ih _ _ (by omega)
      · rw [splitTextGo, if_neg hlt]
        rfl

theorem foldl_render (l : List ChatMsg) :
    ∀ (acc : String), l.foldl (fun a m => a ++ renderMsg m) acc = acc ++ renderHistory l := by
  induction l with
  | nil => intro acc; simp [renderHistory]
  | cons m t ih =>
      intro acc
      rw [List.foldl_cons, ih, renderHistory, ← String.append_assoc]

theorem renderHistory_ne_empty (m : ChatMsg) (t : List ChatMsg) :
    renderHistory (m :: t) ≠ "" := by
  intro h
  have hlen : (renderHistory (m :: t)).length = 0 := by rw [h]; rfl
  rw [renderHistory, renderMsg, String.length_append, String.length_append,
    String.length_append, String.length_append] at hlen
  have hone : ("\n" : String).length = 1 := rfl
  omega

theorem takeLast_eq_nil_iff (l : List ChatMsg) : takeLast 3 l = [] ↔ l = [] := by
  unfold takeLast
  rw [List.drop_eq_nil_iff]
  constructor
  · intro h
    have : l.length = 0 := by omega
    exact List.length_eq_zero.mp this
  · intro h
    subst h
    simp

theorem takeLast_takeLast (l : List ChatMsg) :
    takeLast 3 (takeLast 3 l) = takeLast 3 l := by
  unfold takeLast
  have : (l.drop (l.length - 3)).length ≤ 3 := by
    rw [List.length_drop]; omega
  rw [show (l.drop (l.length - 3)).length - 3 = 0 from by omega, List.drop_zero]

theorem historyText_eq {l : List ChatMsg} (h : l ≠ []) :
    historyText (some l) = renderHistory (takeLast 3 l) := by
  rw [historyText, if_neg h, foldl_render]
  rfl

theorem historyText_ne_empty {l : List ChatMsg} (h : l ≠ []) :
    historyText (some l) ≠ "" := by
  rw [historyText_eq h]
  obtain ⟨m, t, hmt⟩ := List.exists_cons_of_ne_nil
    (fun hnil => h ((takeLast_eq_nil_iff l).mp hnil))
  rw [hmt]
  exact renderHistory_ne_empty m t

theorem build_prompt_congr {h₁ h₂ : Option (List ChatMsg)}
    (h : historyText h₁ = historyText h₂) (q c : String) :
    build_prompt q c h₁ = build_prompt q c h₂ := by
  unfold build_prompt
  rw [h]

theorem renderHistory_eq_of_map {l₁ l₂ : List ChatMsg}
    (h : l₁.map renderMsg = l₂.map renderMsg) :
    renderHistory l₁ = renderHistory l₂ := by
  induction l₁ generalizing l₂ with
  | nil =>
      cases l₂ with
      | nil => rfl
      | cons b bs => simp at h
  | cons a as ih =>
      cases l₂ with
      | nil => simp at h
      | cons b bs =>
          simp only [List.map_cons, List.cons.injEq] at h
          rw [renderHistory, renderHistory, h.1, ih h.2]

theorem historyText_map_congr {l₁ l₂ : List ChatMsg}
    (h : l₁.map renderMsg = l₂.map renderMsg) :
    historyText (some l₁) = historyText (some l₂) := by
  have hlen : l₁.length = l₂.length := by
    have := congrArg List.length h
    simpa using this
  by_cases h1 : l₁ = []
  · subst h1
    have h2 : l₂ = [] := List.length_eq_zero.mp (by simpa using hlen.symm)
    subst h2
    rfl
  · have h2 : l₂ ≠ [] := by
      intro hc; subst hc
      exact h1 (List.length_eq_zero.mp (by simpa using hlen))
    rw [historyText_eq h1, historyText_eq h2]
    apply renderHistory_eq_of_map
    unfold takeLast
    rw [List.map_drop, List.map_drop, h, hlen]

theorem processPdfGo_structure (fuel : Nat) (fn : String) :
    ∀ (pages : List (List Char)) (pn : Nat) (r : List Chunk),
      processPdfGo fuel fn pages pn = some r →
      r = ((pages.enumFrom pn).map (fun it =>
            if pyStrip it.2 = [] then []
            else ((split_text it.2 800 200 fuel).getD []).enum.map
              (fun jc => Chunk.mk jc.2 ⟨fn, it.1, jc.1⟩))).flatten := by
  intro pages
  induction pages with
  | nil =>
      intro pn r h
      rw [processPdfGo] at h
      simp only [Option.some.injEq] at h
      subst h
      rfl
  | cons t rest ih =>
      intro pn r h
      rw [processPdfGo] at h
      by_cases hstrip : pyStrip t = []
      · rw [if_pos hstrip] at h
        have hrec := ih (pn + 1) r h
        rw [hrec]
        simp [List.enumFrom_cons, hstrip]
      · rw [if_neg hstrip] at h
        cases hsplit : split_text t 800 200 fuel with
        | none => rw [hsplit] at h; simp at h
        | some pcs =>
            rw [hsplit] at h
            obtain ⟨r', hr', hrr⟩ := Option.map_eq_some'.mp h
            rw [← hrr, ih (pn + 1) r' hr']
            simp [List.enumFrom_cons, hstrip, hsplit]

theorem splitTextGo_ne_nil (text : List Char) (cs ov : Int) :
    ∀ (fuel : Nat) (s : Int) (acc r : List (List Char)),
      (∀ c ∈ acc, c ≠ []) → splitTextGo text cs ov fuel s acc = some r →
      ∀ c ∈ r, c ≠ [] := by
  intro fuel
  induction fuel with
  | zero => intro s acc r _ h; rw [splitTextGo] at h; simp at h
  | succ n ih =>
      intro s acc r hacc h
      rw [splitTextGo] at h
      by_cases hlt : s < (text.length : Int)
      · rw [if_pos hlt] at h
        by_cases hck : pyStrip (pySlice text s (stepEnd text cs s)) = []
        · rw [if_pos hck] at h
          exact ih _ _ _ hacc h
        · rw [if_neg hck] at h
          refine ih _ _ _ ?_ h
          intro c hc
          rcases List.mem_append.mp hc with hc | hc
          · exact hacc c hc
          · rw [List.mem_singleton.mp hc]
            exact hck
      · rw [if_neg hlt] at h
        injection h with h'
        subst h'
        exact hacc

theorem splitTextGo_windows (text : List Char) (cs ov : Int) (hov : 0 ≤ ov) :
    ∀ (fuel : Nat) (s : Int) (acc r : List (List Char)),
      0 ≤ s → splitTextGo text cs ov fuel s acc = some r →
      splitAdvances text cs ov fuel s = true →
      ∃ ws : List (Int × Int),
        r = acc ++ ws.map (fun w => pyStrip (pySlice text w.1 w.2)) ∧
        List.Chain' (fun a b => a.1 < b.1) ws ∧
        (∀ w ∈ ws, s ≤ w.1) ∧
        (∀ (i : Nat) (hi : i < text.length), s ≤ (i : Int) →
          isPySpace (text.get ⟨i, hi⟩) = false →
          ∃ w ∈ ws, text.get ⟨i, hi⟩ ∈ pyStrip (pySlice text w.1 w.2)) := by
  intro fuel
  induction fuel with
  | zero => intro s acc r _ h _; rw [splitTextGo] at h; simp at h
  | succ n ih =>
      intro s acc r hs h hadv
      rw [splitTextGo] at h
      rw [splitAdvances] at hadv
      by_cases hlt : s < (text.length : Int)
      · rw [if_pos hlt] at h hadv
        rw [Bool.and_eq_true, decide_eq_true_iff] at hadv
        obtain ⟨hadv1, hadv2⟩ := hadv
        have hs' : 0 ≤ stepStart text cs ov s := le_trans hs (le_of_lt hadv1)
        obtain ⟨ws', hr, hchain, hge, hcov⟩ :=
          ih (stepStart text cs ov s) _ r hs' h hadv2
        have hgap : ∀ (i : Nat), (i : Int) < stepStart text cs ov s →
            (i : Int) < stepEnd text cs s := by
          intro i hi
          unfold stepStart at hi
          by_cases hel : stepEnd text cs s < (text.length : Int)
          · rw [if_pos hel] at hi; omega
          · rw [if_neg hel] at hi; omega
        by_cases hck : pyStrip (pySlice text s (stepEnd text cs s)) = []
        · rw [if_pos hck] at hr
          refine ⟨ws', hr, hchain, fun w hw => le_trans (le_of_lt hadv1) (hge w hw), ?_⟩
          intro i hi hsi hns
          by_cases hi' : stepStart text cs ov s ≤ (i : Int)
          · exact hcov i hi hi' hns
          · exfalso
            have hmem := mem_pyStrip (mem_pySlice hs hsi (hgap i (lt_of_not_le hi')) hi) hns
            rw [hck] at hmem
            simp at hmem
        · rw [if_neg hck] at hr
          refine ⟨(s, stepEnd text cs s) :: ws', ?_, ?_, ?_, ?_⟩
          · rw [hr]; simp
          · rw [List.chain'_cons']
            exact ⟨fun b hb => lt_of_lt_of_le hadv1 (hge b (List.mem_of_mem_head? hb)),
              hchain⟩
          · intro w hw
            rcases List.mem_cons.mp hw with rfl | hw
            · exact le_refl s
            · exact le_trans (le_of_lt hadv1) (hge w hw)
          · intro i hi hsi hns
            by_cases hi' : stepStart text cs ov s ≤ (i : Int)
            · obtain ⟨w, hw, hmem⟩ := hcov i hi hi' hns
              exact ⟨w, List.mem_cons_of_mem _ hw, hmem⟩
            · exact ⟨(s, stepEnd text cs s), List.mem_cons_self _ _,
                mem_pyStrip (mem_pySlice hs hsi (hgap i (lt_of_not_le hi')) hi) hns⟩
      · rw [if_neg hlt] at h
        injection h with h'
        subst h'
        refine ⟨[], by simp, List.chain'_nil, by simp, ?_⟩
        intro i hi hsi _
        exfalso
        have hcast : (i : Int) < (text.length : Int) := by exact_mod_cast hi
        omega

/-! ### Claim theorems -/

/-- C1 (amended): when `split_text` proposes an end before the text's
end, the four delimiters are tried in the fixed priority order
`'. ', '? ', '! ', '\n'` and the end moves to one past the start of
the last occurrence of the first delimiter kind that occurs at all in
the window (not the latest occurrence across kinds); only when none of
the four occurs is the last plain space used, and only when neither
occurs does the cut stay at the raw boundary.  For
`"Hello world. Goodbye world."` with `chunk_size=15, overlap=5` the
first emitted chunk is `"Hello world."`. -/
theorem split_text_break_priority :
    (∀ (text : List Char) (s e0 : Int),
      adjustEnd text s e0 =
        if pyRfind text ['.', ' '] s e0 ≠ -1 then pyRfind text ['.', ' '] s e0 + 1
        else if pyRfind text ['?', ' '] s e0 ≠ -1 then pyRfind text ['?', ' '] s e0 + 1
        else if pyRfind text ['!', ' '] s e0 ≠ -1 then pyRfind text ['!', ' '] s e0 + 1
        else if pyRfind text ['\n'] s e0 ≠ -1 then pyRfind text ['\n'] s e0 + 1
        else if pyRfind text [' '] s e0 ≠ -1 then pyRfind text [' '] s e0
        else e0) ∧
    pyStrip (pySlice "Hello world. Goodbye world.".toList 0
        (stepEnd "Hello world. Goodbye world.".toList 15 0)) = "Hello world.".toList := by
  constructor
  · intro text s e0
    simp only [adjustEnd, findBreak, sentenceBreaks]
    split_ifs <;> simp_all
  · decide

/-- C1 counterexample: in the window `[0, 10)` of
`"a. b\ncdefghijkl"` the latest delimiter occurrence across the four
kinds is the `'\n'` at index 4, so a cut just after the latest
occurrence would give the first chunk `"a. b"`; the code instead cuts
after the last `'. '` (the first kind in priority order, at index 1)
and its first chunk is `"a."`. -/
theorem split_text_latest_break_counterexample :
    pyRfind "a. b\ncdefghijkl".toList ['.', ' '] 0 10 = 1 ∧
    pyRfind "a. b\ncdefghijkl".toList ['?', ' '] 0 10 = -1 ∧
    pyRfind "a. b\ncdefghijkl".toList ['!', ' '] 0 10 = -1 ∧
    pyRfind "a. b\ncdefghijkl".toList ['\n'] 0 10 = 4 ∧
    pyStrip (pySlice "a. b\ncdefghijkl".toList 0 (4 + 1)) = "a. b".toList ∧
    split_text "a. b\ncdefghijkl".toList 10 0 5 =
      some ["a.".toList, "b".toList, "cdefghijkl".toList] ∧
    "a.".toList ≠ "a. b".toList := by
  decide

/-- C3 counterexample: with `chunk_size = 10` and `overlap = 0`
(so `0 ≤ overlap < chunk_size`) the loop of `split_text` never
terminates on `" aaaaaaaaaaaa"`: the only space of the window is at
the cursor, the end is moved back onto the cursor, and the cursor
never advances. -/
theorem split_text_nontermination_counterexample :
    ¬ SplitTerminates " aaaaaaaaaaaa".toList 10 0 := by
  rintro ⟨fuel, h⟩
  unfold split_text at h
  rw [splitTextGo_stall fuel []] at h
  simp at h

/-- C3 (amended): `split_text` terminates for every text containing no
space and no newline character, for all parameters with
`0 ≤ overlap < chunk_size`: no delimiter or space is ever found, so
each iteration advances the cursor by `chunk_size - overlap ≥ 1`. -/
theorem split_text_terminates_of_no_space_newline :
    ∀ (text : List Char) (cs ov : Int),
      ' ' ∉ text → '\n' ∉ text → 0 ≤ ov → ov < cs →
      SplitTerminates text cs ov := by
  intro text cs ov hs hn _ hcs
  exact ⟨text.length + 1,
    splitTextGo_no_ws_isSome hs hn hcs text.length 0 [] (by omega)⟩

/-- Witness for C3 (amended) at a concrete space-free text. -/
theorem split_text_terminates_of_no_space_newline_witness :
    SplitTerminates "abcd".toList 3 1 :=
  split_text_terminates_of_no_space_newline "abcd".toList 3 1
    (by decide) (by decide) (by decide) (by decide)

/-- C8 (amended): a non-empty text shorter than `chunk_size` whose
stripped form is non-empty yields exactly one chunk, the whole text
trimmed.  (A whitespace-only text of this shape instead yields no
chunk at all — see the counterexample.) -/
theorem split_text_short_text_single_chunk :
    ∀ (text : List Char) (cs ov : Int) (fuel : Nat),
      text ≠ [] → (text.length : Int) < cs → pyStrip text ≠ [] →
      split_text text cs ov (fuel + 2) = some [pyStrip text] := by
  intro text cs ov fuel hne hlen hstrip
  have hl : 0 < text.length := List.length_pos.mpr hne
  rw [split_text, splitTextGo, if_pos (by exact_mod_cast hl)]
  have hse : stepEnd text cs 0 = cs := by
    unfold stepEnd
    rw [if_neg (by omega)]
    omega
  have hslice : pySlice text 0 cs = text := by
    unfold pySlice pyAdjIdx
    rw [if_neg (by omega), if_neg (by omega)]
    have hcsn : text.length ≤ cs.toNat := by omega
    rw [Nat.min_eq_right hcsn]
    simp
  rw [hse, hslice, if_neg hstrip]
  have hstart : stepStart text cs ov 0 = (text.length : Int) := by
    unfold stepStart
    rw [hse, if_neg (by omega)]
  rw [hstart, splitTextGo, if_neg (by omega)]
  rfl

/-- Witness for C8 (amended) at a concrete short text. -/
theorem split_text_short_text_single_chunk_witness :
    split_text "ab".toList 5 1 (0 + 2) = some [pyStrip "ab".toList] :=
  split_text_short_text_single_chunk "ab".toList 5 1 0
    (by decide) (by decide) (by decide)

/-- C8 counterexample: the whitespace-only text `" "` is non-empty and
shorter than `chunk_size = 2`, yet `split_text` returns no chunk at
all instead of one chunk equal to the trimmed text. -/
theorem split_text_whitespace_only_counterexample :
    split_text " ".toList 2 0 3 = some [] ∧
    split_text " ".toList 2 0 3 ≠ some [pyStrip " ".toList] := by
  decide

/-- C7 (amended): for a non-empty chunk list `get_document_stats`
returns the chunk count, the summed text lengths, the set of distinct
sources and the floor average; for the empty list it returns zeros and
an empty source set but omits the `avg_chunk_size` key entirely. -/
theorem get_document_stats_spec :
    ∀ (chunks : List Chunk), chunks ≠ [] →
      get_document_stats chunks =
        { total_chunks := chunks.length
          total_characters := (chunks.map (fun c => c.text.length)).sum
          sources := (chunks.map (fun c => c.metadata.source)).toFinset
          avg_chunk_size := some ((chunks.map (fun c => c.text.length)).sum / chunks.length) } := by
  intro chunks h
  unfold get_document_stats
  rw [if_neg h, if_neg h]

/-- Witness for C7 (amended) at a concrete two-chunk list. -/
theorem get_document_stats_spec_witness :
    get_document_stats [⟨"ab".toList, ⟨"a.pdf", 1, 0⟩⟩, ⟨"cdef".toList, ⟨"a.pdf", 1, 1⟩⟩] =
      { total_chunks := 2, total_characters := 6,
        sources := ["a.pdf"].toFinset, avg_chunk_size := some 3 } :=
  (get_document_stats_spec [⟨"ab".toList, ⟨"a.pdf", 1, 0⟩⟩, ⟨"cdef".toList, ⟨"a.pdf", 1, 1⟩⟩]
    (by decide)).trans (by decide)

/-- C7 counterexample: on the empty list the returned record carries
no `avg_chunk_size` field at all, so it differs from the record the
claim describes, which has `avg_chunk_size = 0`. -/
theorem get_document_stats_empty_counterexample :
    get_document_stats [] = ⟨0, 0, ∅, none⟩ ∧
    (⟨0, 0, ∅, none⟩ : DocStats) ≠ ⟨0, 0, ∅, some 0⟩ := by
  constructor
  · unfold get_document_stats
    rw [if_pos rfl]
  · intro h
    simp at h

set_option maxRecDepth 100000 in
/-- C5: whenever `process_pdf` returns, its output lists, per page in
page order, one `Chunk` per element of `split_text(text, 800, 200)`
with `page` the 1-based page number and `chunk` the 0-based position
inside that page's chunk list; pages that strip to empty contribute
nothing.  In particular a 2-page document whose pages yield 3 and 2
chunks produces exactly 5 records with pages `[1,1,1,2,2]` and chunk
indices `[0,1,2,0,1]`. -/
theorem process_pdf_page_chunk_structure :
    (∀ (fuel : Nat) (pages : List (List Char)) (fn : String) (r : List Chunk),
       process_pdf fuel pages fn = some r →
       r = ((pages.enumFrom 1).map (fun it =>
             if pyStrip it.2 = [] then []
             else ((split_text it.2 800 200 fuel).getD []).enum.map
               (fun jc => Chunk.mk jc.2 ⟨fn, it.1, jc.1⟩))).flatten) ∧
    process_pdf 4 [List.replicate 1401 'a', List.replicate 801 'b'] "doc.pdf" =
      some [⟨List.replicate 800 'a', ⟨"doc.pdf", 1, 0⟩⟩,
            ⟨List.replicate 800 'a', ⟨"doc.pdf", 1, 1⟩⟩,
            ⟨List.replicate 201 'a', ⟨"doc.pdf", 1, 2⟩⟩,
            ⟨List.replicate 800 'b', ⟨"doc.pdf", 2, 0⟩⟩,
            ⟨List.replicate 201 'b', ⟨"doc.pdf", 2, 1⟩⟩] := by
  constructor
  · intro fuel pages fn r h
    exact processPdfGo_structure fuel fn pages 1 r h
  · decide

/-- Witness for C5 at a concrete single-page document. -/
theorem process_pdf_page_chunk_structure_witness :
    ([⟨"x".toList, ⟨"f.pdf", 1, 0⟩⟩] : List Chunk) =
      ((["x".toList].enumFrom 1).map (fun it =>
        if pyStrip it.2 = [] then []
        else ((split_text it.2 800 200 2).getD []).enum.map
          (fun jc => Chunk.mk jc.2 ⟨"f.pdf", it.1, jc.1⟩))).flatten :=
  process_pdf_page_chunk_structure.1 2 ["x".toList] "f.pdf" _ (by decide)

/-- C6 (amended): on every run of `split_text` that terminates, no
emitted chunk is the empty string; when additionally `overlap ≥ 0`
and the cursor strictly advances at every loop iteration, every
non-whitespace character of the input appears in at least one output
chunk and the chunks come from windows whose start positions strictly
increase, i.e. they appear in the order of their source positions. -/
theorem split_text_coverage_and_order :
    ∀ (text : List Char) (cs ov : Int) (fuel : Nat) (r : List (List Char)),
      split_text text cs ov fuel = some r →
      ((∀ c ∈ r, c ≠ []) ∧
       (0 ≤ ov → splitAdvances text cs ov fuel 0 = true →
         ((∀ (i : Nat) (hi : i < text.length), isPySpace (text.get ⟨i, hi⟩) = false →
            ∃ c ∈ r, text.get ⟨i, hi⟩ ∈ c) ∧
          (∃ ws : List (Int × Int),
            r = ws.map (fun w => pyStrip (pySlice text w.1 w.2)) ∧
            List.Chain' (fun a b => a.1 < b.1) ws)))) := by
  intro text cs ov fuel r h
  unfold split_text at h
  refine ⟨splitTextGo_ne_nil text cs ov fuel 0 [] r (by simp) h, ?_⟩
  intro hov hadv
  obtain ⟨ws, hr, hchain, _, hcov⟩ :=
    splitTextGo_windows text cs ov hov fuel 0 [] r (le_refl 0) h hadv
  rw [List.nil_append] at hr
  refine ⟨?_, ws, hr, hchain⟩
  intro i hi hns
  obtain ⟨w, hw, hmem⟩ := hcov i hi (by omega) hns
  exact ⟨pyStrip (pySlice text w.1 w.2), by rw [hr]; exact List.mem_map_of_mem _ hw, hmem⟩

/-- Witness for C6 (amended): the run on `"abcdef"` with
`chunk_size = 3, overlap = 1` terminates with strictly advancing
cursor and chunks `["abc", "cde", "ef"]`. -/
theorem split_text_coverage_and_order_witness :
    (∀ c ∈ ["abc".toList, "cde".toList, "ef".toList], c ≠ []) ∧
    (∀ (i : Nat) (hi : i < "abcdef".toList.length),
       isPySpace ("abcdef".toList.get ⟨i, hi⟩) = false →
       ∃ c ∈ ["abc".toList, "cde".toList, "ef".toList], "abcdef".toList.get ⟨i, hi⟩ ∈ c) ∧
    (∃ ws : List (Int × Int),
       ["abc".toList, "cde".toList, "ef".toList] =
         ws.map (fun w => pyStrip (pySlice "abcdef".toList w.1 w.2)) ∧
       List.Chain' (fun a b => a.1 < b.1) ws) :=
  ⟨(split_text_coverage_and_order "abcdef".toList 3 1 5
      ["abc".toList, "cde".toList, "ef".toList] (by decide)).1,
   (split_text_coverage_and_order "abcdef".toList 3 1 5
      ["abc".toList, "cde".toList, "ef".toList] (by decide)).2 (by decide) (by decide)⟩

/-- C6 counterexample: the run on `" abcdefgh"` with
`chunk_size = 7, overlap = 4` terminates (the space at the cursor
sends the cursor to a negative index, after which it recovers at
index 2), yet the non-whitespace character `'a'` at index 1 appears
in no output chunk. -/
theorem split_text_coverage_counterexample :
    split_text " abcdefgh".toList 7 4 6 = some ["bcdefgh".toList] ∧
    isPySpace 'a' = false ∧
    'a' ∈ " abcdefgh".toList ∧
    'a' ∉ "bcdefgh".toList := by
  decide

/-- C2: whenever retrieval returns an empty document sequence,
`get_response` returns exactly the fixed no-documents message with an
empty source list, and `_call_ollama` is never invoked (the invocation
count is 0), for every query, index state and chat history. -/
theorem get_response_no_documents :
    ∀ {α : Type} (search : String → List String × List α)
      (transport : String → OllamaResp) (query : String)
      (hist : Option (List ChatMsg)),
      (search query).1 = [] →
      get_response search transport query hist =
        (("I don\x27t have any documents to reference. Please upload some documents first.", []), 0) := by
  intro α search transport query hist h
  unfold get_response
  rw [if_pos h]

/-- Witness for C2 at a concrete empty search result. -/
theorem get_response_no_documents_witness :
    get_response (fun _ => ([], ([] : List Nat))) (fun _ => OllamaResp.connError) "q" none =
      (("I don\x27t have any documents to reference. Please upload some documents first.", []), 0) :=
  get_response_no_documents _ _ _ _ rfl

/-- C4: when retrieval is non-empty and the generation call fails
(connection failure, timeout or other request failure),
`get_response` returns normally with an error-describing string and an
empty source list; for connection failures that string contains the
message telling the caller to start the generation service. -/
theorem get_response_generation_error :
    ∀ {α : Type} (search : String → List String × List α)
      (transport : String → OllamaResp) (query : String)
      (hist : Option (List ChatMsg)),
      (search query).1 ≠ [] →
      ((transport (build_prompt query
            (String.intercalate "\n\n---\n\n" (search query).1) hist) = OllamaResp.connError →
          get_response search transport query hist =
            (("Error getting response from Ollama: Cannot connect to Ollama. Make sure it\x27s running with: ollama serve", []), 1) ∧
          ∃ pre suf, (get_response search transport query hist).1.1 =
            pre ++ "Cannot connect to Ollama. Make sure it\x27s running with: ollama serve" ++ suf) ∧
       (transport (build_prompt query
            (String.intercalate "\n\n---\n\n" (search query).1) hist) = OllamaResp.timeout →
          get_response search transport query hist =
            (("Error getting response from Ollama: Ollama request timed out. Try a smaller model or simpler question.", []), 1)) ∧
       (∀ (m : String), transport (build_prompt query
            (String.intercalate "\n\n---\n\n" (search query).1) hist) = OllamaResp.reqError m →
          get_response search transport query hist =
            (("Error getting response from Ollama: Error calling Ollama: " ++ m, []), 1))) := by
  intro α search transport query hist hne
  refine ⟨fun hc => ⟨?_, ?_⟩, fun ht => ?_, fun m hm => ?_⟩
  · unfold get_response
    rw [if_neg hne, hc]
    rfl
  · refine ⟨"Error getting response from Ollama: ", "", ?_⟩
    unfold get_response
    rw [if_neg hne, hc]
    rfl
  · unfold get_response
    rw [if_neg hne, ht]
    rfl
  · unfold get_response
    rw [if_neg hne, hm]
    show (("Error getting response from Ollama: " ++ ("Error calling Ollama: " ++ m), ([] : List α)), 1) = _
    rw [← String.append_assoc]
    rfl

/-- Witness for C4 at a concrete non-empty search result and a
connection failure. -/
theorem get_response_generation_error_witness :
    get_response (fun _ => (["d"], ([] : List Nat))) (fun _ => OllamaResp.connError) "q" none =
      (("Error getting response from Ollama: Cannot connect to Ollama. Make sure it\x27s running with: ollama serve", []), 1) :=
  (((get_response_generation_error _ _ _ _ (by simp)).1) rfl).1

/-- C9: the prompt incorporates at most the last 3 history entries;
it equals the fixed template whose history section is the placeholder
`"(No previous conversation)"` when the history is empty, and
otherwise the concatenated renderings of the last 3 entries, each on
its own line as the uppercased role, `": "`, and the content. -/
theorem build_prompt_last_three_history :
    (∀ (query context : String) (h : List ChatMsg),
       build_prompt query context (some h) =
         build_prompt query context (some (takeLast 3 h))) ∧
    (∀ (query context : String) (h : List ChatMsg),
       build_prompt query context (some h) =
         systemMsg ++ "\n\nPREVIOUS CONVERSATION:\n" ++
           (if h = [] then "(No previous conversation)"
            else renderHistory (takeLast 3 h)) ++
           "\n\nRELEVANT DOCUMENTS:\n" ++ context ++
           "\n\nUSER QUESTION: " ++ query ++ "\n\nASSISTANT ANSWER:") := by
  constructor
  · intro query context h
    apply build_prompt_congr
    by_cases hh : h = []
    · subst hh; rfl
    · have ht : takeLast 3 h ≠ [] := fun hc => hh ((takeLast_eq_nil_iff h).mp hc)
      rw [historyText_eq hh, historyText_eq ht, takeLast_takeLast]
  · intro query context h
    unfold build_prompt
    by_cases hh : h = []
    · subst hh
      rw [if_pos rfl]
      rfl
    · rw [if_neg (historyText_ne_empty hh), if_neg hh, historyText_eq hh]

/-- C10: `get_response` and `_build_prompt` treat a `None` history
exactly like an empty history, render a message with a missing
`"role"` key as role `"user"`, and render a message with a missing
`"content"` key as empty content. -/
theorem chat_history_missing_key_defaults :
    (∀ (α : Type) (search : String → List String × List α)
       (transport : String → OllamaResp) (query : String),
       get_response search transport query none =
         get_response search transport query (some [])) ∧
    (∀ (query context : String),
       build_prompt query context none = build_prompt query context (some [])) ∧
    (∀ (query context : String) (pre post : List ChatMsg) (oc : Option String),
       build_prompt query context (some (pre ++ { role := none, content := oc } :: post)) =
         build_prompt query context (some (pre ++ { role := some "user", content := oc } :: post))) ∧
    (∀ (query context : String) (pre post : List ChatMsg) (orole : Option String),
       build_prompt query context (some (pre ++ { role := orole, content := none } :: post)) =
         build_prompt query context (some (pre ++ { role := orole, content := some "" } :: post))) := by
  have hb : ∀ (query context : String),
      build_prompt query context none = build_prompt query context (some []) :=
    fun query context => build_prompt_congr rfl query context
  refine ⟨?_, hb, ?_, ?_⟩
  · intro α search transport query
    unfold get_response
    rw [hb]
  · intro query context pre post oc
    apply build_prompt_congr
    apply historyText_map_congr
    simp only [List.map_append, List.map_cons]
    rfl
  · intro query context pre post orole
    apply build_prompt_congr
    apply historyText_map_congr
    simp only [List.map_append, List.map_cons]
    rfl

end SmartDocChat
